import Mathlib

/- Verification of the event-emitter library (`src/event-emitter.ts`).

   Shallow embedding conventions:

   * JavaScript values of the event-data type `TEventData` are modelled as
     `Option V`; `none` is the JavaScript value `undefined` (in particular,
     for an `EventEmitter<void>` the call `emit()` passes `undefined`).
     The private field `_value?: TEventData` starts out `undefined` and is
     overwritten by `emit`, so "never assigned" and "assigned `undefined`"
     are deliberately conflated, exactly as in JavaScript.

   * Callback functions are identified by natural numbers (JavaScript
     function identity; `Array.prototype.includes` / `indexOf` compare with
     `===`).  An environment maps a callback id and the payload it receives
     to the list of primitive effects its body performs; the interpreter
     below executes those effects against a world of emitter instances.

   * Re-entrant `emit` and direct calls to other callbacks recurse through
     a `fuel` bound on nesting depth; running out of fuel stops execution,
     which never happens in the finite scenarios considered here.  -/

variable {V E : Type}

/-- State of one `EventEmitter` instance: the `callbacks` array (as a list of
callback ids), the `_value` field, and the state of the promise chain wired
at construction for `first` (lines 8-10): `firstResolvedVal = some d` once
the internal `subscribeOnce(resolve)` wrapper has run `resolve(d)`, and
`firstHandlerRan` records whether the `.then` handler
`(value) => { this._value = value; }` has already executed. -/
structure SyncEmitter (V : Type) where
  callbacks : List Nat
  value : Option V := none
  firstResolvedVal : Option (Option V) := none
  firstHandlerRan : Bool := false
deriving DecidableEq

/-- Observable events recorded while the interpreter runs: `invoked e c d` is
an invocation of callback `c` by the dispatch loop of emitter `e` with
payload `d`; `called c d` is a direct function call of `c` (by a
`subscribeOnce` wrapper or by `subscribeImmediate`); `observed e c val`
records callback `c` reading `emitter e`.value and seeing `val`. -/
inductive Entry (V : Type) where
  | invoked (e c : Nat) (d : Option V)
  | called (c : Nat) (d : Option V)
  | observed (e c : Nat) (val : Option V)
deriving DecidableEq

/-- A world of synchronous emitter instances together with the event log. -/
structure World (V : Type) where
  emitters : List (SyncEmitter V)
  log : List (Entry V) := []
deriving DecidableEq

def defaultEmitter (V : Type) : SyncEmitter V := { callbacks := [] }

def getEm (w : World V) (e : Nat) : SyncEmitter V :=
  w.emitters.getD e (defaultEmitter V)

def setEm (w : World V) (e : Nat) (em : SyncEmitter V) : World V :=
  { w with emitters := w.emitters.set e em }

/-- `unsubscribe(callback)` (lines 51-54, identical at lines 108-111):
`this.callbacks.splice(this.callbacks.indexOf(callback), 1)`.
When the callback is present, the first occurrence is removed.  When it is
absent, `indexOf` returns `-1`, and `splice(-1, 1)` removes the **last**
element of a non-empty array (and nothing from an empty one). -/
def unsubscribeList (l : List Nat) (c : Nat) : List Nat :=
  match l.indexOf? c with
  | some i => l.eraseIdx i
  | none => l.dropLast

/-- Primitive effects a callback body may perform on the world. -/
inductive Op (V : Type) where
  | unsub (e c : Nat)
  | sub (e c : Nat)
  | emitOp (e : Nat) (d : Option V)
  | callCb (c : Nat)
  | resolveFirst (e : Nat) (d : Option V)
  | readValue (e : Nat)
deriving DecidableEq

/-- Behaviour environment: the effects callback `c` performs when it is
called with payload `d`. -/
def Env (V : Type) : Type := Nat → Option V → List (Op V)

def applyUnsub (e c : Nat) (w : World V) : World V :=
  setEm w e { getEm w e with callbacks := unsubscribeList (getEm w e).callbacks c }

/-- `subscribe(callback)` (lines 22-29): `this.callbacks.push(callback)`. -/
def applySub (e c : Nat) (w : World V) : World V :=
  setEm w e { getEm w e with callbacks := (getEm w e).callbacks ++ [c] }

/-- `resolve(d)` on the promise behind `first`; resolving an already-resolved
promise is a no-op. -/
def applyResolveFirst (e : Nat) (d : Option V) (w : World V) : World V :=
  match (getEm w e).firstResolvedVal with
  | none => setEm w e { getEm w e with firstResolvedVal := some d }
  | some _ => w

/-- A callback reading the `value` getter (lines 17-19) of emitter `e`. -/
def applyRead (e self : Nat) (w : World V) : World V :=
  { w with log := w.log ++ [Entry.observed e self (getEm w e).value] }

def setValue (e : Nat) (d : Option V) (w : World V) : World V :=
  setEm w e { getEm w e with value := d }

/-- The `first` promise `.then` handler `(value) => { this._value = value; }`
(lines 8-10), running as a microtask once all synchronous work is done. -/
def settleFirst (e : Nat) (w : World V) : World V :=
  match (getEm w e).firstResolvedVal, (getEm w e).firstHandlerRan with
  | some d, false => setEm w e { getEm w e with value := d, firstHandlerRan := true }
  | _, _ => w

mutual

/-- Runs the body of callback `self`, invoked with payload `d`, effect by
effect.  `Op.callCb c` is the direct call `void callback(eventData)` inside
a `subscribeOnce` wrapper (line 59); `Op.emitOp` is a re-entrant `emit`. -/
def runOps (fuel : Nat) (env : Env V) (self : Nat) (d : Option V)
    (ops : List (Op V)) (w : World V) : World V :=
  match ops with
  | [] => w
  | Op.unsub e c :: rest => runOps fuel env self d rest (applyUnsub e c w)
  | Op.sub e c :: rest => runOps fuel env self d rest (applySub e c w)
  | Op.emitOp e dv :: rest =>
    if h : fuel = 0 then w
    else
      let w2 := emitFn (fuel - 1) env e dv w
      runOps fuel env self d rest w2
  | Op.callCb c :: rest =>
    if h : fuel = 0 then w
    else
      let w2 := runOps (fuel - 1) env c d (env c d) { w with log := w.log ++ [Entry.called c d] }
      runOps fuel env self d rest w2
  | Op.resolveFirst e dv :: rest => runOps fuel env self d rest (applyResolveFirst e dv w)
  | Op.readValue e :: rest => runOps fuel env self d rest (applyRead e self w)
termination_by (fuel, 1, ops.length)
decreasing_by
  all_goals simp_wf
  all_goals first
    | (apply Prod.Lex.right; first
        | omega
        | (apply Prod.Lex.right; omega)
        | (apply Prod.Lex.left; omega))
    | (apply Prod.Lex.left; omega)

/-- One invocation `void callback(eventData)` performed by the dispatch loop
(line 47): log the invocation, then run the callback body. -/
def invoke (fuel : Nat) (env : Env V) (e c : Nat) (d : Option V) (w : World V) : World V :=
  runOps fuel env c d (env c d) { w with log := w.log ++ [Entry.invoked e c d] }
termination_by (fuel, 2, 0)
decreasing_by
  all_goals simp_wf
  all_goals first
    | (apply Prod.Lex.right; first
        | omega
        | (apply Prod.Lex.right; omega)
        | (apply Prod.Lex.left; omega))
    | (apply Prod.Lex.left; omega)

/-- The dispatch loop of `emit` (lines 45-48): iterate over the snapshot
`[...this.callbacks]`, invoking each callback only if it is still in the
live `this.callbacks` list at its turn (`includes` check, line 47). -/
def dispatch (fuel : Nat) (env : Env V) (e : Nat) (d : Option V)
    (snapshot : List Nat) (w : World V) : World V :=
  match snapshot with
  | [] => w
  | c :: cs =>
    if c ∈ (getEm w e).callbacks then dispatch fuel env e d cs (invoke fuel env e c d w)
    else dispatch fuel env e d cs w
termination_by (fuel, 3, snapshot.length)
decreasing_by
  all_goals simp_wf
  all_goals first
    | (apply Prod.Lex.right; first
        | omega
        | (apply Prod.Lex.right; omega)
        | (apply Prod.Lex.left; omega))
    | (apply Prod.Lex.left; omega)

/-- `EventEmitter.emit` (lines 39-49): set `this._value = eventData`, take the
snapshot `[...this.callbacks]`, then run the dispatch loop over it. -/
def emitFn (fuel : Nat) (env : Env V) (e : Nat) (d : Option V) (w : World V) : World V :=
  let w1 := setValue e d w
  dispatch fuel env e d (getEm w1 e).callbacks w1
termination_by (fuel, 4, 0)
decreasing_by
  all_goals simp_wf
  all_goals first
    | (apply Prod.Lex.right; first
        | omega
        | (apply Prod.Lex.right; omega)
        | (apply Prod.Lex.left; omega))
    | (apply Prod.Lex.left; omega)

end

/-- `subscribeImmediate(callback)` (lines 31-36): `subscribe`, then
`if (this._value !== undefined) void callback(this._value)`. -/
def subscribeImmediateFn (fuel : Nat) (env : Env V) (e c : Nat) (w : World V) : World V :=
  let w1 := applySub e c w
  match (getEm w1 e).value with
  | some x =>
    runOps fuel env c (some x) (env c (some x))
      { w1 with log := w1.log ++ [Entry.called c (some x)] }
  | none => w1

/-- Body of the internal callback wired at construction for `first`
(lines 8-15): the `subscribeOnce(resolve)` wrapper resolves the promise with
the event data and then unsubscribes itself. -/
def firstResolverOps (e self : Nat) (d : Option V) : List (Op V) :=
  [Op.resolveFirst e d, Op.unsub e self]

/-- Body of a `subscribeOnce` wrapper (lines 57-64): call the wrapped
callback, **then** unsubscribe the wrapper. -/
def onceWrapperOps (e self inner : Nat) (d : Option V) : List (Op V) :=
  [Op.callCb inner, Op.unsub e self]

/-- Body of the relay subscribed by `pipe()` (line 71):
`(eventData) => eventEmitter.emit(eventData)`. -/
def pipeRelayOps (target : Nat) (d : Option V) : List (Op V) :=
  [Op.emitOp target d]

/-- Body of the relay subscribed by `pipe(callback)` (line 76):
`(eventData) => eventEmitter.emit(callback(eventData))`. -/
def pipeRelayTransformOps (target : Nat) (f : Option V → Option V) (d : Option V) :
    List (Op V) :=
  [Op.emitOp target (f d)]

/-- A freshly constructed `EventEmitter`: the only subscriber is the internal
`subscribeOnce(resolve)` wrapper created by the `first` field initializer. -/
def freshEmitter (resolverId : Nat) : SyncEmitter V := { callbacks := [resolverId] }

example : unsubscribeList [3, 4, 3] 3 = [4, 3] := by decide
example : unsubscribeList [3] 7 = [] := by decide
example : unsubscribeList ([] : List Nat) 7 = [] := by decide

/- ===================== Asynchronous emitter model =====================

   `AsyncEventEmitter` (lines 81-136).  Asynchronous callbacks are modelled
   with an explicit clock counting cooperative-scheduler ticks: an `await`
   of sub-work of duration `n` is the effect `AOp.delay n`, a throw or
   rejection with error `err` is `AOp.fail err`.  A handler's world
   mutations (`subscribe`/`unsubscribe`) happen at the points where its
   effect list places them.  Errors propagate: `runAOps` stops at the first
   failing effect and returns the error, mirroring promise rejection. -/

/-- The two dispatch strategies (line 84). -/
inductive Strategy where
  | sequential
  | parallel
deriving DecidableEq

/-- State of one `AsyncEventEmitter` instance. -/
structure AsyncEmitter where
  callbacks : List Nat
  strategy : Strategy
deriving DecidableEq

/-- Log entries of the asynchronous interpreter, stamped with the clock tick
at which they happen. -/
inductive AEntry (V : Type) where
  | ainvoked (e c : Nat) (d : Option V) (t : Nat)
  | acalled (c : Nat) (d : Option V) (t : Nat)
deriving DecidableEq

/-- A world of asynchronous emitter instances, a cooperative clock, and the
event log. -/
structure AWorld (V : Type) where
  emitters : List AsyncEmitter
  clock : Nat := 0
  log : List (AEntry V) := []
deriving DecidableEq

def defaultAEmitter : AsyncEmitter := { callbacks := [], strategy := Strategy.sequential }

def getAEm (w : AWorld V) (e : Nat) : AsyncEmitter :=
  w.emitters.getD e defaultAEmitter

def setAEm (w : AWorld V) (e : Nat) (em : AsyncEmitter) : AWorld V :=
  { w with emitters := w.emitters.set e em }

/-- Effects an asynchronous handler body may perform.  `callA c` is the
`await callback(eventData)` inside the async `subscribeOnce` wrapper
(line 116); `emitA e d` is an awaited nested `emit` (as performed by the
`pipe` relay, lines 128 and 133). -/
inductive AOp (V E : Type) where
  | unsub (e c : Nat)
  | sub (e c : Nat)
  | delay (n : Nat)
  | fail (err : E)
  | callA (c : Nat)
  | emitA (e : Nat) (d : Option V)
deriving DecidableEq

/-- Behaviour environment for asynchronous callbacks. -/
def AEnv (V E : Type) : Type := Nat → Option V → List (AOp V E)

def aApplyUnsub (e c : Nat) (w : AWorld V) : AWorld V :=
  setAEm w e { getAEm w e with callbacks := unsubscribeList (getAEm w e).callbacks c }

def aApplySub (e c : Nat) (w : AWorld V) : AWorld V :=
  setAEm w e { getAEm w e with callbacks := (getAEm w e).callbacks ++ [c] }

/-- Semantics of `await Promise.all(ps)` over the settle times and outcomes
of the constituent promises, all started at tick `t0`: if every promise
fulfills, `Promise.all` fulfills when the last one does; if any rejects, it
rejects as soon as the earliest rejection settles (ties broken towards the
earlier index), **without** waiting for the remaining promises. -/
def promiseAllCombine (hd acc : Nat × Option E) : Nat × Option E :=
  match hd, acc with
  | (t, some err), (t2, some err2) => if t ≤ t2 then (t, some err) else (t2, some err2)
  | (t, some err), (_, none) => (t, some err)
  | (_, none), (t2, some err2) => (t2, some err2)
  | (t, none), (t2, none) => (max t t2, none)

def promiseAllSettle (t0 : Nat) : List (Nat × Option E) → Nat × Option E
  | [] => (t0, none)
  | hd :: rest => promiseAllCombine hd (promiseAllSettle t0 rest)

mutual

/-- Runs the body of asynchronous callback `self` effect by effect,
returning the mutated world and `some err` if the handler rejected. -/
def runAOps (fuel : Nat) (env : AEnv V E) (self : Nat) (d : Option V)
    (ops : List (AOp V E)) (w : AWorld V) : AWorld V × Option E :=
  match ops with
  | [] => (w, none)
  | AOp.unsub e c :: rest => runAOps fuel env self d rest (aApplyUnsub e c w)
  | AOp.sub e c :: rest => runAOps fuel env self d rest (aApplySub e c w)
  | AOp.delay n :: rest => runAOps fuel env self d rest { w with clock := w.clock + n }
  | AOp.fail err :: _ => (w, some err)
  | AOp.callA c :: rest =>
    if h : fuel = 0 then (w, none)
    else
      match runAOps (fuel - 1) env c d (env c d)
          { w with log := w.log ++ [AEntry.acalled c d w.clock] } with
      | (w2, some err) => (w2, some err)
      | (w2, none) => runAOps fuel env self d rest w2
  | AOp.emitA e dv :: rest =>
    if h : fuel = 0 then (w, none)
    else
      match emitAsync (fuel - 1) env e dv w with
      | (w2, some err) => (w2, some err)
      | (w2, none) => runAOps fuel env self d rest w2
termination_by (fuel, 1, ops.length)
decreasing_by
  all_goals simp_wf
  all_goals first
    | (apply Prod.Lex.right; first
        | omega
        | (apply Prod.Lex.right; omega)
        | (apply Prod.Lex.left; omega))
    | (apply Prod.Lex.left; omega)

/-- One invocation of asynchronous callback `c` by the dispatch of emitter
`e`: log it at the current tick, then run the body. -/
def invokeA (fuel : Nat) (env : AEnv V E) (e c : Nat) (d : Option V) (w : AWorld V) :
    AWorld V × Option E :=
  runAOps fuel env c d (env c d) { w with log := w.log ++ [AEntry.ainvoked e c d w.clock] }
termination_by (fuel, 2, 0)
decreasing_by
  all_goals simp_wf
  all_goals first
    | (apply Prod.Lex.right; first
        | omega
        | (apply Prod.Lex.right; omega)
        | (apply Prod.Lex.left; omega))
    | (apply Prod.Lex.left; omega)

/-- Sequential dispatch (line 104):
`for (const callback of callbacks) await callback(eventData)` over the
snapshot — no live-membership recheck; a rejection exits the loop and
propagates. -/
def seqDispatch (fuel : Nat) (env : AEnv V E) (e : Nat) (d : Option V)
    (snapshot : List Nat) (w : AWorld V) : AWorld V × Option E :=
  match snapshot with
  | [] => (w, none)
  | c :: cs =>
    match invokeA fuel env e c d w with
    | (w1, some err) => (w1, some err)
    | (w1, none) => seqDispatch fuel env e d cs w1
termination_by (fuel, 3, snapshot.length)
decreasing_by
  all_goals simp_wf
  all_goals first
    | (apply Prod.Lex.right; first
        | omega
        | (apply Prod.Lex.right; omega)
        | (apply Prod.Lex.left; omega))
    | (apply Prod.Lex.left; omega)

/-- The `callbacks.map((callback) => callback(eventData))` phase of parallel
dispatch (line 105): every handler is started at tick `t0`; each handler's
effects run from `t0`, and its settle tick and outcome are collected. -/
def parRun (fuel : Nat) (env : AEnv V E) (e : Nat) (d : Option V) (t0 : Nat)
    (snapshot : List Nat) (w : AWorld V) : AWorld V × List (Nat × Option E)  :=
  match snapshot with
  | [] => (w, [])
  | c :: cs =>
    match invokeA fuel env e c d { w with clock := t0 } with
    | (w1, r) =>
      match parRun fuel env e d t0 cs { w1 with clock := t0 } with
      | (w2, rs) => (w2, (w1.clock, r) :: rs)
termination_by (fuel, 3, snapshot.length)
decreasing_by
  all_goals simp_wf
  all_goals first
    | (apply Prod.Lex.right; first
        | omega
        | (apply Prod.Lex.right; omega)
        | (apply Prod.Lex.left; omega))
    | (apply Prod.Lex.left; omega)

/-- `AsyncEventEmitter.emit` (lines 102-106): snapshot `[...this.callbacks]`,
then either sequentially await each callback, or start them all and
`await Promise.all`. -/
def emitAsync (fuel : Nat) (env : AEnv V E) (e : Nat) (d : Option V) (w : AWorld V) :
    AWorld V × Option E :=
  match (getAEm w e).strategy with
  | Strategy.sequential => seqDispatch fuel env e d (getAEm w e).callbacks w
  | Strategy.parallel =>
    match parRun fuel env e d w.clock (getAEm w e).callbacks w with
    | (w1, rs) =>
      match promiseAllSettle w.clock rs with
      | (t, r) => ({ w1 with clock := t }, r)
termination_by (fuel, 4, 0)
decreasing_by
  all_goals simp_wf
  all_goals first
    | (apply Prod.Lex.right; first
        | omega
        | (apply Prod.Lex.right; omega)
        | (apply Prod.Lex.left; omega))
    | (apply Prod.Lex.left; omega)

end

/-- Body of the async `subscribeOnce` wrapper (lines 114-121):
`await callback(eventData)`, then unsubscribe the wrapper. -/
def aOnceWrapperOps (e self inner : Nat) (d : Option V) : List (AOp V E) :=
  [AOp.callA inner, AOp.unsub e self]

/-- Body of the relay subscribed by the async `pipe()` (line 128). -/
def aPipeRelayOps (target : Nat) (d : Option V) : List (AOp V E) :=
  [AOp.emitA target d]

/-- Body of the relay subscribed by the async `pipe(callback)` (line 133). -/
def aPipeRelayTransformOps (target : Nat) (f : Option V → Option V) (d : Option V) :
    List (AOp V E) :=
  [AOp.emitA target (f d)]

/-- An asynchronous handler that awaits sub-work for `dur c` ticks and then
either returns or rejects with `fails c`. -/
def delayFailOps (dur : Nat → Nat) (fails : Nat → Option E) (c : Nat) : List (AOp V E) :=
  AOp.delay (dur c) ::
    (match fails c with
     | some err => [AOp.fail err]
     | none => [])

def delayFailEnv (dur : Nat → Nat) (fails : Nat → Option E) : AEnv V E :=
  fun c _ => delayFailOps dur fails c

/- ===================== Rewrite toolkit =====================

   The interpreters above are defined by well-founded recursion, so they do
   not reduce definitionally; the equations below let `simp` evaluate them
   step by step. -/

@[simp] theorem unsubscribeList_nil (c : Nat) : unsubscribeList [] c = [] := rfl

@[simp] theorem unsubscribeList_cons_self (c : Nat) (l : List Nat) :
    unsubscribeList (c :: l) c = l := by
  simp [unsubscribeList, List.indexOf?_cons]

@[simp] theorem unsubscribeList_not_mem (l : List Nat) (c : Nat) (h : c ∉ l) :
    unsubscribeList l c = l.dropLast := by
  have hi : l.indexOf? c = none := by
    rw [List.indexOf?_eq_none_iff]
    intro x hx
    simp only [beq_iff_eq]
    rintro rfl
    exact h hx
  simp [unsubscribeList, hi]

@[simp] theorem unsubscribeList_cons_mem (a : Nat) (l : List Nat) (c : Nat)
    (h : a ≠ c) (h2 : c ∈ l) : unsubscribeList (a :: l) c = a :: unsubscribeList l c := by
  have hne : (a == c) = false := by simp [h]
  cases hi : l.indexOf? c with
  | none =>
    exfalso
    rw [List.indexOf?_eq_none_iff] at hi
    exact hi c h2 (by simp)
  | some i =>
    simp [unsubscribeList, List.indexOf?_cons, hne, hi, List.eraseIdx_cons_succ]

@[simp] theorem getEm_nil (lg : List (Entry V)) (e : Nat) :
    getEm ⟨[], lg⟩ e = defaultEmitter V := rfl

@[simp] theorem getEm_zero (em : SyncEmitter V) (ems : List (SyncEmitter V))
    (lg : List (Entry V)) : getEm ⟨em :: ems, lg⟩ 0 = em := rfl

@[simp] theorem getEm_succ (em : SyncEmitter V) (ems : List (SyncEmitter V))
    (lg : List (Entry V)) (e : Nat) : getEm ⟨em :: ems, lg⟩ (e + 1) = getEm ⟨ems, lg⟩ e := rfl

@[simp] theorem setEm_nil (lg : List (Entry V)) (e : Nat) (em : SyncEmitter V) :
    setEm ⟨[], lg⟩ e em = ⟨[], lg⟩ := rfl

@[simp] theorem setEm_zero (em : SyncEmitter V) (ems : List (SyncEmitter V))
    (lg : List (Entry V)) (em2 : SyncEmitter V) :
    setEm ⟨em :: ems, lg⟩ 0 em2 = ⟨em2 :: ems, lg⟩ := rfl

@[simp] theorem setEm_succ (em : SyncEmitter V) (ems : List (SyncEmitter V))
    (lg : List (Entry V)) (e : Nat) (em2 : SyncEmitter V) :
    setEm ⟨em :: ems, lg⟩ (e + 1) em2 = ⟨em :: ems.set e em2, lg⟩ := rfl

@[simp] theorem applyUnsub_eq (e c : Nat) (w : World V) :
    applyUnsub e c w =
      setEm w e { getEm w e with callbacks := unsubscribeList (getEm w e).callbacks c } := rfl

@[simp] theorem applySub_eq (e c : Nat) (w : World V) :
    applySub e c w =
      setEm w e { getEm w e with callbacks := (getEm w e).callbacks ++ [c] } := rfl

@[simp] theorem applyResolveFirst_eq (e : Nat) (d : Option V) (w : World V) :
    applyResolveFirst e d w =
      match (getEm w e).firstResolvedVal with
      | none => setEm w e { getEm w e with firstResolvedVal := some d }
      | some _ => w := rfl

@[simp] theorem applyRead_eq (e self : Nat) (w : World V) :
    applyRead e self w =
      { w with log := w.log ++ [Entry.observed e self (getEm w e).value] } := rfl

@[simp] theorem setValue_eq (e : Nat) (d : Option V) (w : World V) :
    setValue e d w = setEm w e { getEm w e with value := d } := rfl

@[simp] theorem settleFirst_eq (e : Nat) (w : World V) :
    settleFirst e w =
      match (getEm w e).firstResolvedVal, (getEm w e).firstHandlerRan with
      | some d, false => setEm w e { getEm w e with value := d, firstHandlerRan := true }
      | _, _ => w := rfl

@[simp] theorem runOps_nil (fuel : Nat) (env : Env V) (self : Nat) (d : Option V)
    (w : World V) : runOps fuel env self d [] w = w := by
  simp [runOps]

@[simp] theorem runOps_unsub (fuel : Nat) (env : Env V) (self : Nat) (d : Option V)
    (e c : Nat) (rest : List (Op V)) (w : World V) :
    runOps fuel env self d (Op.unsub e c :: rest) w =
      runOps fuel env self d rest (applyUnsub e c w) := by
  simp [runOps]

@[simp] theorem runOps_sub (fuel : Nat) (env : Env V) (self : Nat) (d : Option V)
    (e c : Nat) (rest : List (Op V)) (w : World V) :
    runOps fuel env self d (Op.sub e c :: rest) w =
      runOps fuel env self d rest (applySub e c w) := by
  simp [runOps]

@[simp] theorem runOps_resolveFirst (fuel : Nat) (env : Env V) (self : Nat) (d : Option V)
    (e : Nat) (dv : Option V) (rest : List (Op V)) (w : World V) :
    runOps fuel env self d (Op.resolveFirst e dv :: rest) w =
      runOps fuel env self d rest (applyResolveFirst e dv w) := by
  simp [runOps]

@[simp] theorem runOps_readValue (fuel : Nat) (env : Env V) (self : Nat) (d : Option V)
    (e : Nat) (rest : List (Op V)) (w : World V) :
    runOps fuel env self d (Op.readValue e :: rest) w =
      runOps fuel env self d rest (applyRead e self w) := by
  simp [runOps]

@[simp] theorem runOps_emit_zero (env : Env V) (self : Nat) (d : Option V)
    (e : Nat) (dv : Option V) (rest : List (Op V)) (w : World V) :
    runOps 0 env self d (Op.emitOp e dv :: rest) w = w := by
  simp [runOps]

@[simp] theorem runOps_emit (fuel : Nat) (env : Env V) (self : Nat) (d : Option V)
    (e : Nat) (dv : Option V) (rest : List (Op V)) (w : World V) (h : fuel ≠ 0) :
    runOps fuel env self d (Op.emitOp e dv :: rest) w =
      runOps fuel env self d rest (emitFn (fuel - 1) env e dv w) := by
  rw [runOps]
  simp [h]

@[simp] theorem runOps_call_zero (env : Env V) (self : Nat) (d : Option V)
    (c : Nat) (rest : List (Op V)) (w : World V) :
    runOps 0 env self d (Op.callCb c :: rest) w = w := by
  simp [runOps]

@[simp] theorem runOps_call (fuel : Nat) (env : Env V) (self : Nat) (d : Option V)
    (c : Nat) (rest : List (Op V)) (w : World V) (h : fuel ≠ 0) :
    runOps fuel env self d (Op.callCb c :: rest) w =
      runOps fuel env self d rest
        (runOps (fuel - 1) env c d (env c d) { w with log := w.log ++ [Entry.called c d] }) := by
  rw [runOps]
  simp [h]

@[simp] theorem invoke_eq (fuel : Nat) (env : Env V) (e c : Nat) (d : Option V)
    (w : World V) :
    invoke fuel env e c d w =
      runOps fuel env c d (env c d) { w with log := w.log ++ [Entry.invoked e c d] } := by
  simp [invoke]

@[simp] theorem dispatch_nil (fuel : Nat) (env : Env V) (e : Nat) (d : Option V)
    (w : World V) : dispatch fuel env e d [] w = w := by
  simp [dispatch]

@[simp] theorem dispatch_cons (fuel : Nat) (env : Env V) (e : Nat) (d : Option V)
    (c : Nat) (cs : List Nat) (w : World V) :
    dispatch fuel env e d (c :: cs) w =
      if c ∈ (getEm w e).callbacks then dispatch fuel env e d cs (invoke fuel env e c d w)
      else dispatch fuel env e d cs w := by
  simp [dispatch]

@[simp] theorem emitFn_eq (fuel : Nat) (env : Env V) (e : Nat) (d : Option V)
    (w : World V) :
    emitFn fuel env e d w =
      dispatch fuel env e d (getEm (setValue e d w) e).callbacks (setValue e d w) := by
  simp [emitFn]

@[simp] theorem subscribeImmediateFn_eq (fuel : Nat) (env : Env V) (e c : Nat)
    (w : World V) :
    subscribeImmediateFn fuel env e c w =
      match (getEm (applySub e c w) e).value with
      | some x =>
        runOps fuel env c (some x) (env c (some x))
          { applySub e c w with log := (applySub e c w).log ++ [Entry.called c (some x)] }
      | none => applySub e c w := rfl

@[simp] theorem getAEm_nil (t : Nat) (lg : List (AEntry V)) (e : Nat) :
    getAEm (⟨[], t, lg⟩ : AWorld V) e = defaultAEmitter := rfl

@[simp] theorem getAEm_zero (em : AsyncEmitter) (ems : List AsyncEmitter)
    (t : Nat) (lg : List (AEntry V)) : getAEm (⟨em :: ems, t, lg⟩ : AWorld V) 0 = em := rfl

@[simp] theorem getAEm_succ (em : AsyncEmitter) (ems : List AsyncEmitter)
    (t : Nat) (lg : List (AEntry V)) (e : Nat) :
    getAEm (⟨em :: ems, t, lg⟩ : AWorld V) (e + 1) = getAEm (⟨ems, t, lg⟩ : AWorld V) e := rfl

@[simp] theorem setAEm_nil (t : Nat) (lg : List (AEntry V)) (e : Nat) (em : AsyncEmitter) :
    setAEm (⟨[], t, lg⟩ : AWorld V) e em = ⟨[], t, lg⟩ := rfl

@[simp] theorem setAEm_zero (em : AsyncEmitter) (ems : List AsyncEmitter)
    (t : Nat) (lg : List (AEntry V)) (em2 : AsyncEmitter) :
    setAEm (⟨em :: ems, t, lg⟩ : AWorld V) 0 em2 = ⟨em2 :: ems, t, lg⟩ := rfl

@[simp] theorem setAEm_succ (em : AsyncEmitter) (ems : List AsyncEmitter)
    (t : Nat) (lg : List (AEntry V)) (e : Nat) (em2 : AsyncEmitter) :
    setAEm (⟨em :: ems, t, lg⟩ : AWorld V) (e + 1) em2 = ⟨em :: ems.set e em2, t, lg⟩ := rfl

@[simp] theorem aApplyUnsub_eq (e c : Nat) (w : AWorld V) :
    aApplyUnsub e c w =
      setAEm w e { getAEm w e with callbacks := unsubscribeList (getAEm w e).callbacks c } := rfl

@[simp] theorem aApplySub_eq (e c : Nat) (w : AWorld V) :
    aApplySub e c w =
      setAEm w e { getAEm w e with callbacks := (getAEm w e).callbacks ++ [c] } := rfl

@[simp] theorem runAOps_nil (fuel : Nat) (env : AEnv V E) (self : Nat) (d : Option V)
    (w : AWorld V) : runAOps fuel env self d [] w = (w, none) := by
  simp [runAOps]

@[simp] theorem runAOps_unsub (fuel : Nat) (env : AEnv V E) (self : Nat) (d : Option V)
    (e c : Nat) (rest : List (AOp V E)) (w : AWorld V) :
    runAOps fuel env self d (AOp.unsub e c :: rest) w =
      runAOps fuel env self d rest (aApplyUnsub e c w) := by
  simp [runAOps]

@[simp] theorem runAOps_sub (fuel : Nat) (env : AEnv V E) (self : Nat) (d : Option V)
    (e c : Nat) (rest : List (AOp V E)) (w : AWorld V) :
    runAOps fuel env self d (AOp.sub e c :: rest) w =
      runAOps fuel env self d rest (aApplySub e c w) := by
  simp [runAOps]

@[simp] theorem runAOps_delay (fuel : Nat) (env : AEnv V E) (self : Nat) (d : Option V)
    (n : Nat) (rest : List (AOp V E)) (w : AWorld V) :
    runAOps fuel env self d (AOp.delay n :: rest) w =
      runAOps fuel env self d rest { w with clock := w.clock + n } := by
  simp [runAOps]

@[simp] theorem runAOps_fail (fuel : Nat) (env : AEnv V E) (self : Nat) (d : Option V)
    (err : E) (rest : List (AOp V E)) (w : AWorld V) :
    runAOps fuel env self d (AOp.fail err :: rest) w = (w, some err) := by
  simp [runAOps]

@[simp] theorem runAOps_call_zero (env : AEnv V E) (self : Nat) (d : Option V)
    (c : Nat) (rest : List (AOp V E)) (w : AWorld V) :
    runAOps 0 env self d (AOp.callA c :: rest) w = (w, none) := by
  simp [runAOps]

@[simp] theorem runAOps_call (fuel : Nat) (env : AEnv V E) (self : Nat) (d : Option V)
    (c : Nat) (rest : List (AOp V E)) (w : AWorld V) (h : fuel ≠ 0) :
    runAOps fuel env self d (AOp.callA c :: rest) w =
      (match runAOps (fuel - 1) env c d (env c d)
          { w with log := w.log ++ [AEntry.acalled c d w.clock] } with
       | (w2, some err) => (w2, some err)
       | (w2, none) => runAOps fuel env self d rest w2) := by
  rw [runAOps]
  simp [h]

@[simp] theorem runAOps_emit_zero (env : AEnv V E) (self : Nat) (d : Option V)
    (e : Nat) (dv : Option V) (rest : List (AOp V E)) (w : AWorld V) :
    runAOps 0 env self d (AOp.emitA e dv :: rest) w = (w, none) := by
  simp [runAOps]

@[simp] theorem runAOps_emit (fuel : Nat) (env : AEnv V E) (self : Nat) (d : Option V)
    (e : Nat) (dv : Option V) (rest : List (AOp V E)) (w : AWorld V) (h : fuel ≠ 0) :
    runAOps fuel env self d (AOp.emitA e dv :: rest) w =
      (match emitAsync (fuel - 1) env e dv w with
       | (w2, some err) => (w2, some err)
       | (w2, none) => runAOps fuel env self d rest w2) := by
  rw [runAOps]
  simp [h]

@[simp] theorem invokeA_eq (fuel : Nat) (env : AEnv V E) (e c : Nat) (d : Option V)
    (w : AWorld V) :
    invokeA fuel env e c d w =
      runAOps fuel env c d (env c d)
        { w with log := w.log ++ [AEntry.ainvoked e c d w.clock] } := by
  simp [invokeA]

@[simp] theorem seqDispatch_nil (fuel : Nat) (env : AEnv V E) (e : Nat) (d : Option V)
    (w : AWorld V) : seqDispatch fuel env e d [] w = (w, none) := by
  simp [seqDispatch]

@[simp] theorem seqDispatch_cons (fuel : Nat) (env : AEnv V E) (e : Nat) (d : Option V)
    (c : Nat) (cs : List Nat) (w : AWorld V) :
    seqDispatch fuel env e d (c :: cs) w =
      (match invokeA fuel env e c d w with
       | (w1, some err) => (w1, some err)
       | (w1, none) => seqDispatch fuel env e d cs w1) := by
  simp [seqDispatch]

@[simp] theorem parRun_nil (fuel : Nat) (env : AEnv V E) (e : Nat) (d : Option V)
    (t0 : Nat) (w : AWorld V) : parRun fuel env e d t0 [] w = (w, []) := by
  simp [parRun]

@[simp] theorem parRun_cons (fuel : Nat) (env : AEnv V E) (e : Nat) (d : Option V)
    (t0 : Nat) (c : Nat) (cs : List Nat) (w : AWorld V) :
    parRun fuel env e d t0 (c :: cs) w =
      (match invokeA fuel env e c d { w with clock := t0 } with
       | (w1, r) =>
         match parRun fuel env e d t0 cs { w1 with clock := t0 } with
         | (w2, rs) => (w2, (w1.clock, r) :: rs)) := by
  simp [parRun]

@[simp] theorem emitAsync_eq (fuel : Nat) (env : AEnv V E) (e : Nat) (d : Option V)
    (w : AWorld V) :
    emitAsync fuel env e d w =
      (match (getAEm w e).strategy with
       | Strategy.sequential => seqDispatch fuel env e d (getAEm w e).callbacks w
       | Strategy.parallel =>
         match parRun fuel env e d w.clock (getAEm w e).callbacks w with
         | (w1, rs) =>
           match promiseAllSettle w.clock rs with
           | (t, r) => ({ w1 with clock := t }, r)) := by
  simp [emitAsync]

/- ===================== Log projections ===================== -/

/-- Direct calls of wrapped user callbacks recorded in a synchronous log. -/
def calledEntries : List (Entry V) → List (Nat × Option V)
  | [] => []
  | Entry.called c d :: rest => (c, d) :: calledEntries rest
  | _ :: rest => calledEntries rest

/-- Direct calls of wrapped user callbacks recorded in an asynchronous log. -/
def acalledEntries : List (AEntry V) → List (Nat × Option V)
  | [] => []
  | AEntry.acalled c d _ :: rest => (c, d) :: acalledEntries rest
  | _ :: rest => acalledEntries rest

/-- The callback ids of the dispatch invocations in an asynchronous log, in
order. -/
def ainvokedIds : List (AEntry V) → List Nat
  | [] => []
  | AEntry.ainvoked _ c _ _ :: rest => c :: ainvokedIds rest
  | _ :: rest => ainvokedIds rest

/- ===================== Scenario environments ===================== -/

/-- A world whose only callback behaviour is the internal `first` resolver of
emitter `0` (callback id `0`); every other callback is passive. -/
def resolverOnlyEnv : Env V :=
  fun c d => if c = 0 then firstResolverOps 0 0 d else []

/-- Emitter `0` carries its `first` resolver (id 0) and one `subscribeOnce`
wrapper (id 1) around user callback 2, which is passive. -/
def onceEnv : Env V :=
  fun c d =>
    if c = 0 then firstResolverOps 0 0 d
    else if c = 1 then onceWrapperOps 0 1 2 d
    else []

/-- Like `onceEnv`, but the wrapped user callback 2 reacts to payload
`some 1` by re-entrantly emitting `some 2` on the same emitter. -/
def onceReemitEnv : Env Nat :=
  fun c d =>
    if c = 0 then firstResolverOps 0 0 d
    else if c = 1 then onceWrapperOps 0 1 2 d
    else if c = 2 then (if d = some 1 then [Op.emitOp 0 (some 2)] else [])
    else []

/-- Async emitter `0` has two subscribers; the first unsubscribes the second
during dispatch. -/
def unsubDuringDispatchAEnv : AEnv Nat Nat :=
  fun c _ => if c = 1 then [AOp.unsub 0 2] else []

/-- Async `subscribeOnce` wrapper (id 1) around passive user callback 2. -/
def aOnceEnv : AEnv V E :=
  fun c d => if c = 1 then aOnceWrapperOps 0 1 2 d else []

/-- Durations for the C4 counterexample: subscriber 1 settles after 1 tick,
subscriber 2 after 5 ticks. -/
def c4Dur : Nat → Nat := fun c => if c = 1 then 1 else 5

/-- Outcomes for the C4 counterexample: subscriber 1 rejects with error 77,
subscriber 2 fulfills. -/
def c4Fails : Nat → Option Nat := fun c => if c = 1 then some 77 else none

/- ===================== Claims ===================== -/

/-- **C1** (code bug, failing part): `unsubscribe(callback)` with an absent
callback is *not* a no-op on a non-empty subscriber list — `indexOf` yields
`-1` and `splice(-1, 1)` removes the **last** subscriber.  With subscribers
`[5]`, unsubscribing the absent callback `7` empties the list; with
`[3, 4]`, it removes `4`.  (The present-callback part of the claim does
hold: the first matching entry is removed, third conjunct.)  Only on an
empty list is the absent case a no-op (fourth conjunct). -/
theorem c1_unsubscribe_absent_removes_last_subscriber :
    unsubscribeList [5] 7 = [] ∧
    unsubscribeList [3, 4] 9 = [3] ∧
    unsubscribeList [3, 4, 3] 3 = [4, 3] ∧
    unsubscribeList ([] : List Nat) 7 = [] := by
  decide

/-- **C2** (code bug): on a fresh `EventEmitter`, after `emit(1)` and
`emit(2)` in the same synchronous block, `value` is `2` as claimed — but
once the promise behind `first` settles, its `.then` handler
`(value) => { this._value = value; }` (lines 8-10) overwrites `_value` with
the **first** emitted value, so a reader then observes `1`, not the most
recent `2`. -/
theorem c2_value_reverts_when_first_settles :
    (getEm (emitFn 5 resolverOnlyEnv 0 (some 2)
        (emitFn 5 resolverOnlyEnv 0 (some 1)
          { emitters := [freshEmitter 0] })) 0).value = some 2 ∧
    (getEm (settleFirst 0 (emitFn 5 resolverOnlyEnv 0 (some 2)
        (emitFn 5 resolverOnlyEnv 0 (some 1)
          { emitters := [freshEmitter 0] }))) 0).value = some 1 := by
  simp [resolverOnlyEnv, firstResolverOps, freshEmitter]

/-- **C8** (code bug): on a fresh `EventEmitter<void>`, `emit()` stores the
payload `undefined`, so an emission has happened (the `first` promise was
resolved, first conjunct) — yet `subscribeImmediate` (line 34) tests
`this._value !== undefined` and therefore does **not** call the callback at
subscribe time (second and third conjuncts: the log gains no `called`
entry, only the subscription is recorded).  With a non-`undefined` prior
payload the callback *is* called exactly once at subscribe time with the
last value (fourth conjunct). -/
theorem c8_subscribeImmediate_misses_undefined_payload :
    (getEm (emitFn 5 (resolverOnlyEnv (V := Nat)) 0 none
        { emitters := [freshEmitter 0] }) 0).firstResolvedVal = some none ∧
    (subscribeImmediateFn 5 (resolverOnlyEnv (V := Nat)) 0 3
        (emitFn 5 resolverOnlyEnv 0 none { emitters := [freshEmitter 0] })).log =
      [Entry.invoked 0 0 none] ∧
    (getEm (subscribeImmediateFn 5 (resolverOnlyEnv (V := Nat)) 0 3
        (emitFn 5 resolverOnlyEnv 0 none { emitters := [freshEmitter 0] })) 0).callbacks =
      [3] ∧
    (subscribeImmediateFn 5 (resolverOnlyEnv (V := Nat)) 0 3
        (emitFn 5 resolverOnlyEnv 0 (some 7) { emitters := [freshEmitter 0] })).log =
      [Entry.invoked 0 0 (some 7), Entry.called 3 (some 7)] := by
  simp [resolverOnlyEnv, firstResolverOps, freshEmitter]

/-- **C6** (counterexample): a `subscribeOnce` wrapper unsubscribes itself
only *after* the wrapped callback returns (lines 58-61), so when the
callback re-entrantly emits, the wrapper is still subscribed and the
callback is called a **second** time within the outer call: one
`subscribeOnce` registration, one top-level `emit(1)`, and the wrapped
callback runs twice (with payloads `1` and `2`), refuting "invoked at most
once ... even when further emits are triggered from within the callback
itself". -/
theorem c6_counterexample_reentrant_emit_double_call :
    calledEntries (emitFn 10 onceReemitEnv 0 (some 1)
        { emitters := [{ callbacks := [0, 1] }] }).log =
      [(2, some 1), (2, some 2)] := by
  simp [onceReemitEnv, firstResolverOps, onceWrapperOps, calledEntries]

/-- **C3** (counterexample): `AsyncEventEmitter.emit` iterates its snapshot
**without** the live-membership recheck of the synchronous emitter: with
subscribers `[1, 2]` (sequential strategy), subscriber 1 unsubscribes
subscriber 2 during dispatch — the final live list is `[1]` — yet
subscriber 2 is still invoked by that same emission, refuting "a callback
that has been removed from the live subscriber sequence before its turn is
not invoked by that emit". -/
theorem c3_counterexample_removed_callback_still_invoked :
    emitAsync 5 unsubDuringDispatchAEnv 0 (some 3)
        { emitters := [{ callbacks := [1, 2], strategy := Strategy.sequential }] } =
      ({ emitters := [{ callbacks := [1], strategy := Strategy.sequential }],
         clock := 0,
         log := [AEntry.ainvoked 0 1 (some 3) 0, AEntry.ainvoked 0 2 (some 3) 0] },
       none) := by
  simp [unsubDuringDispatchAEnv]

/-- **C4** (counterexample): with the `parallel` strategy, `emit` awaits
`Promise.all`, which rejects as soon as the first rejection settles:
subscriber 1 rejects with error 77 after 1 tick while subscriber 2 only
fulfills after 5 ticks — `emit` reports the failure at tick 1, **before**
subscriber 2 has settled (1 < 5), refuting "reports a failure outcome only
after all subscribers have settled". -/
theorem c4_counterexample_promise_all_short_circuits :
    (emitAsync 5 (delayFailEnv c4Dur c4Fails) 0 (some 3)
        { emitters := [{ callbacks := [1, 2], strategy := Strategy.parallel }] }).2 =
      some 77 ∧
    (emitAsync 5 (delayFailEnv c4Dur c4Fails) 0 (some 3)
        { emitters := [{ callbacks := [1, 2], strategy := Strategy.parallel }] }).1.clock =
      1 ∧
    c4Dur 2 = 5 ∧ c4Fails 2 = none ∧ 1 < 5 := by
  simp [delayFailEnv, delayFailOps, c4Dur, c4Fails, promiseAllSettle, promiseAllCombine]

/-- **C6** (amended): for both channels, a `subscribeOnce` callback fires
exactly on the first of two top-level `emit` calls and never on the second:
after `emit d1; emit d2` the wrapped callback was called exactly once, with
`d1`.  (The wrapper unsubscribes itself only after the callback returns, so
the at-most-once guarantee covers emits issued after the callback's
invocation completes; a re-entrant emit from within the callback itself can
invoke it again — see the counterexample.) -/
theorem c6_subscribeOnce_fires_exactly_on_first_of_two_emits (d1 d2 : Option V) :
    calledEntries (emitFn 10 (onceEnv (V := V)) 0 d2 (emitFn 10 onceEnv 0 d1
        { emitters := [{ callbacks := [0, 1] }] })).log = [(2, d1)] ∧
    acalledEntries ((emitAsync 10 (aOnceEnv (V := V) (E := E)) 0 d2
        (emitAsync 10 (aOnceEnv (V := V) (E := E)) 0 d1
          { emitters := [{ callbacks := [1], strategy := Strategy.sequential }] }).1).1.log) =
      [(2, d1)] := by
  constructor
  · simp [onceEnv, firstResolverOps, onceWrapperOps, calledEntries]
  · simp [aOnceEnv, aOnceWrapperOps, acalledEntries]

/-- Behaviours for a piped pair of synchronous emitters: emitter 0 (source)
holds its `first` resolver (id 0) and the `pipe(callback)` relay (id 1)
targeting emitter 1 (derived), which holds its own `first` resolver (id 2)
and a passive user subscriber (id 3). -/
def pipeEnv (f : Option V → Option V) : Env V :=
  fun c d =>
    if c = 0 then firstResolverOps 0 0 d
    else if c = 1 then pipeRelayTransformOps 1 f d
    else if c = 2 then firstResolverOps 1 2 d
    else []

/-- Like `pipeEnv` but with the transform-free `pipe()` relay. -/
def pipeIdEnv : Env V :=
  fun c d =>
    if c = 0 then firstResolverOps 0 0 d
    else if c = 1 then pipeRelayOps 1 d
    else if c = 2 then firstResolverOps 1 2 d
    else []

/-- Behaviours for a piped pair of asynchronous emitters: the source relay
(id 10) forwards into the derived emitter 1, whose user subscriber (id 11)
is passive. -/
def aPipeEnv (f : Option V → Option V) : AEnv V E :=
  fun c d => if c = 10 then aPipeRelayTransformOps 1 f d else []

/-- Like `aPipeEnv` but with the transform-free `pipe()` relay. -/
def aPipeIdEnv : AEnv V E :=
  fun c d => if c = 10 then aPipeRelayOps 1 d else []

/-- **C9**: for every transform `f` and payload `d`, on both channel kinds:
emitting `d` on the source makes the derived channel dispatch exactly one
invocation of its subscriber, with payload `f d` (log equality pins down
"exactly once"); the derived sync channel's `value` becomes `f d`; the
transform-free `pipe()` relays `d` unchanged; and unsubscribing the derived
channel's subscriber leaves the source's subscriber list untouched. -/
theorem c9_pipe_emits_transformed_value_exactly_once (f : Option V → Option V)
    (d : Option V) :
    (emitFn 10 (pipeEnv f) 0 d
        { emitters := [{ callbacks := [0, 1] }, { callbacks := [2, 3] }] }).log =
      [Entry.invoked 0 0 d, Entry.invoked 0 1 d,
       Entry.invoked 1 2 (f d), Entry.invoked 1 3 (f d)] ∧
    (getEm (emitFn 10 (pipeEnv f) 0 d
        { emitters := [{ callbacks := [0, 1] }, { callbacks := [2, 3] }] }) 1).value = f d ∧
    (getEm (applyUnsub 1 3 (emitFn 10 (pipeEnv f) 0 d
        { emitters := [{ callbacks := [0, 1] }, { callbacks := [2, 3] }] })) 0).callbacks =
      [1] ∧
    (getEm (applyUnsub 1 3 (emitFn 10 (pipeEnv f) 0 d
        { emitters := [{ callbacks := [0, 1] }, { callbacks := [2, 3] }] })) 1).callbacks =
      [] ∧
    (emitFn 10 (pipeIdEnv (V := V)) 0 d
        { emitters := [{ callbacks := [0, 1] }, { callbacks := [2, 3] }] }).log =
      [Entry.invoked 0 0 d, Entry.invoked 0 1 d,
       Entry.invoked 1 2 d, Entry.invoked 1 3 d] ∧
    emitAsync 10 (aPipeEnv f (E := E)) 0 d
        { emitters := [{ callbacks := [10], strategy := Strategy.sequential },
                       { callbacks := [11], strategy := Strategy.sequential }] } =
      ({ emitters := [{ callbacks := [10], strategy := Strategy.sequential },
                      { callbacks := [11], strategy := Strategy.sequential }],
         clock := 0,
         log := [AEntry.ainvoked 0 10 d 0, AEntry.ainvoked 1 11 (f d) 0] },
       none) ∧
    emitAsync 10 (aPipeIdEnv (V := V) (E := E)) 0 d
        { emitters := [{ callbacks := [10], strategy := Strategy.sequential },
                       { callbacks := [11], strategy := Strategy.sequential }] } =
      ({ emitters := [{ callbacks := [10], strategy := Strategy.sequential },
                      { callbacks := [11], strategy := Strategy.sequential }],
         clock := 0,
         log := [AEntry.ainvoked 0 10 d 0, AEntry.ainvoked 1 11 d 0] },
       none) := by
  refine ⟨?_, ?_, ?_, ?_, ?_, ?_, ?_⟩ <;>
    simp [pipeEnv, pipeIdEnv, aPipeEnv, aPipeIdEnv, firstResolverOps,
      pipeRelayOps, pipeRelayTransformOps, aPipeRelayOps, aPipeRelayTransformOps]

/-- Dispatch over a snapshot of passive user callbacks (ids other than the
resolver id `0`): each entry that is still live at its turn is invoked
exactly once, in snapshot order, and the emitter state is unchanged. -/
lemma dispatch_passive_users (fuel : Nat) (d : Option V) (l live : List Nat)
    (v : Option V) (fr : Option (Option V)) (hr : Bool) (log0 : List (Entry V))
    (hl : ∀ c ∈ l, c ∈ live ∧ c ≠ 0) :
    dispatch fuel (resolverOnlyEnv (V := V)) 0 d l ⟨[⟨live, v, fr, hr⟩], log0⟩ =
      ⟨[⟨live, v, fr, hr⟩], log0 ++ l.map (fun c => Entry.invoked 0 c d)⟩ := by
  induction l generalizing log0 with
  | nil => simp
  | cons c cs ih =>
    obtain ⟨hc, hc0⟩ := hl c (List.mem_cons_self c cs)
    have henv : resolverOnlyEnv (V := V) c d = [] := by simp [resolverOnlyEnv, hc0]
    rw [dispatch_cons]
    simp only [getEm_zero]
    rw [if_pos hc, invoke_eq, henv, runOps_nil]
    rw [ih (log0 ++ [Entry.invoked 0 c d]) (fun x hx => hl x (List.mem_cons_of_mem c hx))]
    simp

/-- Subscriber 1 unsubscribes subscriber 2 during dispatch. -/
def unsubOtherEnv : Env V := fun c _ => if c = 1 then [Op.unsub 0 2] else []

/-- Subscriber 1 subscribes a new callback 5 during dispatch. -/
def subDuringEnv : Env V := fun c _ => if c = 1 then [Op.sub 0 5] else []

/-- **C5**: `emit(d)` on a fresh `EventEmitter` carrying its internal `first`
resolver and any sequence of user subscriptions `us` sets `lastValue` to the
payload, and dispatches to every subscriber exactly once, in subscription
order (full-state equality: the log lists the resolver followed by every
user entry once, in order).  Second conjunct: a callback unsubscribed by an
earlier callback during dispatch is skipped (callback 2 is removed by
callback 1 and never invoked).  Third conjunct: a callback subscribed
during dispatch is not invoked for the current emit (callback 5 is added by
callback 1, ends up subscribed, but the log shows it was not invoked). -/
theorem c5_emit_invokes_subscribers_once_in_order (us : List Nat) (d : Option V) :
    (emitFn 10 (resolverOnlyEnv (V := V)) 0 d
        { emitters := [{ callbacks := 0 :: us.map (· + 1) }] } =
      { emitters := [{ callbacks := us.map (· + 1), value := d, firstResolvedVal := some d,
                       firstHandlerRan := false }],
        log := Entry.invoked 0 0 d :: us.map (fun u => Entry.invoked 0 (u + 1) d) }) ∧
    (emitFn 10 (unsubOtherEnv (V := V)) 0 d { emitters := [{ callbacks := [1, 2] }] } =
      { emitters := [{ callbacks := [1], value := d }],
        log := [Entry.invoked 0 1 d] }) ∧
    (emitFn 10 (subDuringEnv (V := V)) 0 d { emitters := [{ callbacks := [1] }] } =
      { emitters := [{ callbacks := [1, 5], value := d }],
        log := [Entry.invoked 0 1 d] }) := by
  refine ⟨?_, ?_, ?_⟩
  · rw [emitFn_eq]
    simp only [setValue_eq, getEm_zero, setEm_zero]
    rw [dispatch_cons]
    simp only [getEm_zero]
    rw [if_pos (List.mem_cons_self 0 _), invoke_eq]
    have henv : resolverOnlyEnv (V := V) 0 d = firstResolverOps 0 0 d := by
      simp [resolverOnlyEnv]
    rw [henv]
    simp only [firstResolverOps, runOps_resolveFirst, runOps_unsub, applyResolveFirst_eq,
      applyUnsub_eq, getEm_zero, setEm_zero]
    simp only [unsubscribeList_cons_self, runOps_nil, List.nil_append]
    rw [dispatch_passive_users]
    · simp
    · intro c hc
      simp only [List.mem_map] at hc
      obtain ⟨u, hu, rfl⟩ := hc
      exact ⟨List.mem_map_of_mem _ hu, by omega⟩
  · simp [unsubOtherEnv]
  · simp [subDuringEnv]

/-- Mutation-only handler effects: subscribe, unsubscribe, or await sub-work
for some ticks — no failures, direct calls or nested emits. -/
inductive MOp where
  | unsub (e c : Nat)
  | sub (e c : Nat)
  | delay (n : Nat)
deriving DecidableEq

/-- Embeds a mutation-only effect into the full asynchronous language. -/
def MOp.toAOp : MOp → AOp V E
  | MOp.unsub e c => AOp.unsub e c
  | MOp.sub e c => AOp.sub e c
  | MOp.delay n => AOp.delay n

/-- An environment of handlers that only mutate subscriber lists and await. -/
def mutEnv (g : Nat → Option V → List MOp) : AEnv V E :=
  fun c d => (g c d).map MOp.toAOp

@[simp] theorem ainvokedIds_nil : ainvokedIds ([] : List (AEntry V)) = [] := rfl

@[simp] theorem ainvokedIds_cons_invoked (e c : Nat) (d : Option V) (t : Nat)
    (l : List (AEntry V)) :
    ainvokedIds (AEntry.ainvoked e c d t :: l) = c :: ainvokedIds l := rfl

@[simp] theorem ainvokedIds_cons_called (c : Nat) (d : Option V) (t : Nat)
    (l : List (AEntry V)) :
    ainvokedIds (AEntry.acalled c d t :: l) = ainvokedIds l := rfl

@[simp] theorem ainvokedIds_append (a b : List (AEntry V)) :
    ainvokedIds (a ++ b) = ainvokedIds a ++ ainvokedIds b := by
  induction a with
  | nil => simp
  | cons en rest ih => cases en <;> simp [ih]

/-- Mutation-only handler bodies never reject and never write the log. -/
lemma runAOps_mutEnv (fuel : Nat) (g : Nat → Option V → List MOp) (self : Nat)
    (d : Option V) (l : List MOp) (w : AWorld V) :
    (runAOps fuel (mutEnv g (E := E)) self d (l.map MOp.toAOp) w).2 = none ∧
    (runAOps fuel (mutEnv g (E := E)) self d (l.map MOp.toAOp) w).1.log = w.log := by
  induction l generalizing w with
  | nil => simp
  | cons op rest ih =>
    cases op with
    | unsub e c => simpa [MOp.toAOp] using ih (aApplyUnsub e c w)
    | sub e c => simpa [MOp.toAOp] using ih (aApplySub e c w)
    | delay n => simpa [MOp.toAOp] using ih { w with clock := w.clock + n }

/-- Sequential async dispatch over mutation-only handlers logs exactly the
snapshot, in order, and fulfills. -/
lemma seqDispatch_mutEnv (fuel : Nat) (g : Nat → Option V → List MOp) (e : Nat)
    (d : Option V) (cbs : List Nat) (w : AWorld V) :
    (seqDispatch fuel (mutEnv g (E := E)) e d cbs w).2 = none ∧
    ainvokedIds (seqDispatch fuel (mutEnv g (E := E)) e d cbs w).1.log =
      ainvokedIds w.log ++ cbs := by
  induction cbs generalizing w with
  | nil => simp
  | cons c cs ih =>
    rw [seqDispatch_cons, invokeA_eq]
    have henv : mutEnv g (E := E) c d = (g c d).map MOp.toAOp := rfl
    rw [henv]
    rcases hr : runAOps fuel (mutEnv g (E := E)) c d ((g c d).map MOp.toAOp)
        { w with log := w.log ++ [AEntry.ainvoked e c d w.clock] } with ⟨w1, r⟩
    have h := runAOps_mutEnv (E := E) fuel g c d (g c d)
      { w with log := w.log ++ [AEntry.ainvoked e c d w.clock] }
    rw [hr] at h
    obtain ⟨h1, h2⟩ := h
    simp only at h1 h2
    subst h1
    simp only
    have := ih w1
    rw [this.2, h2]
    exact ⟨this.1, by simp⟩

/-- The parallel invocation phase over mutation-only handlers logs exactly
the snapshot, in order, and every started promise fulfills. -/
lemma parRun_mutEnv (fuel : Nat) (g : Nat → Option V → List MOp) (e : Nat)
    (d : Option V) (t0 : Nat) (cbs : List Nat) (w : AWorld V) :
    ainvokedIds (parRun fuel (mutEnv g (E := E)) e d t0 cbs w).1.log =
      ainvokedIds w.log ++ cbs ∧
    ∀ x ∈ (parRun fuel (mutEnv g (E := E)) e d t0 cbs w).2, x.2 = none := by
  induction cbs generalizing w with
  | nil => simp
  | cons c cs ih =>
    rw [parRun_cons, invokeA_eq]
    have henv : mutEnv g (E := E) c d = (g c d).map MOp.toAOp := rfl
    rw [henv]
    rcases hr : runAOps fuel (mutEnv g (E := E)) c d ((g c d).map MOp.toAOp)
        { w with clock := t0, log := w.log ++ [AEntry.ainvoked e c d t0] } with ⟨w1, r⟩
    have h := runAOps_mutEnv (E := E) fuel g c d (g c d)
      { w with clock := t0, log := w.log ++ [AEntry.ainvoked e c d t0] }
    rw [hr] at h
    obtain ⟨h1, h2⟩ := h
    simp only at h1 h2
    subst h1
    simp only
    rcases hp : parRun fuel (mutEnv g (E := E)) e d t0 cs { w1 with clock := t0 } with ⟨w2, rs⟩
    have hih := ih { w1 with clock := t0 }
    rw [hp] at hih
    simp only at hih
    constructor
    · simpa [h2] using hih.1
    · intro x hx
      rcases List.mem_cons.mp hx with hx | hx
      · simp [hx]
      · exact hih.2 x hx

/-- `Promise.all` over promises that all fulfill itself fulfills. -/
lemma promiseAllSettle_all_none (t0 : Nat) (rs : List (Nat × Option E))
    (h : ∀ x ∈ rs, x.2 = none) : (promiseAllSettle t0 rs).2 = none := by
  induction rs with
  | nil => simp [promiseAllSettle]
  | cons hd rest ih =>
    have hh : hd.2 = none := h hd (List.mem_cons_self hd rest)
    have ht := ih (fun x hx => h x (List.mem_cons_of_mem hd hx))
    rcases hd with ⟨t, r⟩
    simp only at hh
    subst hh
    rw [promiseAllSettle]
    rcases hq : promiseAllSettle t0 rest with ⟨t2, r2⟩
    rw [hq] at ht
    simp only at ht
    subst ht
    simp [promiseAllCombine]

/-- **C3** (amended): async dispatch iterates its snapshot without the
liveness recheck: for any family of handler behaviours built from
subscribe/unsubscribe/await effects, under both strategies every snapshot
callback is invoked exactly once, in snapshot order (so none is skipped or
invoked twice) — including callbacks already removed from the live sequence
before their turn, unlike the synchronous channel. -/
theorem c3_async_emit_invokes_whole_snapshot_exactly_once (fuel : Nat)
    (g : Nat → Option V → List MOp) (cbs : List Nat) (d : Option V) :
    ((emitAsync fuel (mutEnv g (E := E)) 0 d
        { emitters := [{ callbacks := cbs, strategy := Strategy.sequential }] }).2 = none ∧
     ainvokedIds (emitAsync fuel (mutEnv g (E := E)) 0 d
        { emitters := [{ callbacks := cbs, strategy := Strategy.sequential }] }).1.log =
       cbs) ∧
    ((emitAsync fuel (mutEnv g (E := E)) 0 d
        { emitters := [{ callbacks := cbs, strategy := Strategy.parallel }] }).2 = none ∧
     ainvokedIds (emitAsync fuel (mutEnv g (E := E)) 0 d
        { emitters := [{ callbacks := cbs, strategy := Strategy.parallel }] }).1.log =
       cbs) := by
  constructor
  · have h := seqDispatch_mutEnv (E := E) fuel g 0 d cbs
      { emitters := [{ callbacks := cbs, strategy := Strategy.sequential }] }
    rw [emitAsync_eq]
    simpa using h
  · rw [emitAsync_eq]
    simp only [getAEm_zero]
    rcases hp : parRun fuel (mutEnv g (E := E)) 0 d 0 cbs
        { emitters := [{ callbacks := cbs, strategy := Strategy.parallel }] } with ⟨w1, rs⟩
    have h := parRun_mutEnv (E := E) fuel g 0 d 0 cbs
      { emitters := [{ callbacks := cbs, strategy := Strategy.parallel }] }
    rw [hp] at h
    simp only at h
    rcases hq : promiseAllSettle 0 rs with ⟨t, r⟩
    have hr := promiseAllSettle_all_none 0 rs h.2
    rw [hq] at hr
    simp only at hr
    subst hr
    simp only
    refine ⟨trivial, ?_⟩
    simpa using h.1

/-- The sequential policy as the specification words it: subscribers are
invoked one at a time, in subscriber-sequence order; an invocation at tick
`t` is fully awaited — taking `dur c` ticks — before the next subscriber is
invoked at `t + dur c`; a failing handler makes dispatch stop (no later
subscriber is invoked) and report that handler's error at the tick where it
settled.  Returns (invocation log, settle tick, outcome). -/
def seqDispatchSpec (dur : Nat → Nat) (fails : Nat → Option E) (e : Nat) (d : Option V)
    (t : Nat) : List Nat → List (AEntry V) × Nat × Option E
  | [] => ([], t, none)
  | c :: cs =>
    match fails c with
    | some err => ([AEntry.ainvoked e c d t], t + dur c, some err)
    | none =>
      let acc := seqDispatchSpec dur fails e d (t + dur c) cs
      (AEntry.ainvoked e c d t :: acc.1, acc.2)

/-- Sequential dispatch over delay/fail handlers equals its specification. -/
lemma seqDispatch_delayFail (fuel : Nat) (dur : Nat → Nat) (fails : Nat → Option E)
    (d : Option V) (cbs : List Nat) (ems : List AsyncEmitter) (t0 : Nat)
    (log0 : List (AEntry V)) :
    seqDispatch fuel (delayFailEnv dur fails (V := V)) 0 d cbs ⟨ems, t0, log0⟩ =
      (⟨ems, (seqDispatchSpec dur fails 0 d t0 cbs).2.1,
         log0 ++ (seqDispatchSpec dur fails 0 d t0 cbs).1⟩,
       (seqDispatchSpec dur fails 0 d t0 cbs).2.2) := by
  induction cbs generalizing t0 log0 with
  | nil => simp [seqDispatchSpec]
  | cons c cs ih =>
    rw [seqDispatch_cons, invokeA_eq]
    cases hf : fails c with
    | some err =>
      simp [delayFailEnv, delayFailOps, hf, seqDispatchSpec]
    | none =>
      simp only [delayFailEnv, delayFailOps, hf, runAOps_delay, runAOps_nil]
      simp only [seqDispatchSpec, hf]
      rw [ih (t0 + dur c) (log0 ++ [AEntry.ainvoked 0 c d t0])]
      simp

/-- **C7**: with the `sequential` strategy, `emit` refines the specified
policy `seqDispatchSpec`: subscribers run one at a time in subscriber order,
each invocation happening only once the previous handler has fully settled
(`dur` ticks later), and a failing handler's error propagates to the `emit`
caller with no later subscriber invoked in that emission. -/
theorem c7_sequential_dispatch_refines_spec (fuel : Nat) (dur : Nat → Nat)
    (fails : Nat → Option E) (d : Option V) (cbs : List Nat) (t0 : Nat)
    (log0 : List (AEntry V)) :
    emitAsync fuel (delayFailEnv dur fails (V := V)) 0 d
        ⟨[⟨cbs, Strategy.sequential⟩], t0, log0⟩ =
      (⟨[⟨cbs, Strategy.sequential⟩], (seqDispatchSpec dur fails 0 d t0 cbs).2.1,
         log0 ++ (seqDispatchSpec dur fails 0 d t0 cbs).1⟩,
       (seqDispatchSpec dur fails 0 d t0 cbs).2.2) := by
  rw [emitAsync_eq]
  simp only [getAEm_zero]
  exact seqDispatch_delayFail fuel dur fails d cbs [⟨cbs, Strategy.sequential⟩] t0 log0

def failCombine (hd acc : Option (Nat × E)) : Option (Nat × E) :=
  match hd, acc with
  | some (t, err), some (t2, err2) =>
    if t ≤ t2 then some (t, err) else some (t2, err2)
  | some (t, err), none => some (t, err)
  | none, acc2 => acc2

/-- The earliest-settling failure among the handlers (ties broken towards
the earlier subscriber), as (duration, error). -/
def firstEarliestFailure (dur : Nat → Nat) (fails : Nat → Option E) :
    List Nat → Option (Nat × E)
  | [] => none
  | c :: cs =>
    failCombine
      (match fails c with
       | some err => some (dur c, err)
       | none => none)
      (firstEarliestFailure dur fails cs)

/-- The longest handler duration. -/
def maxDuration (dur : Nat → Nat) : List Nat → Nat
  | [] => 0
  | c :: cs => max (dur c) (maxDuration dur cs)

/-- The parallel invocation phase over delay/fail handlers: every snapshot
entry is invoked (logged) at the start tick `t0`, and the collected promises
settle at `t0 + dur c` with outcome `fails c`. -/
lemma parRun_delayFail (fuel : Nat) (dur : Nat → Nat) (fails : Nat → Option E)
    (d : Option V) (cbs : List Nat) (ems : List AsyncEmitter) (t0 : Nat)
    (log0 : List (AEntry V)) :
    parRun fuel (delayFailEnv dur fails (V := V)) 0 d t0 cbs ⟨ems, t0, log0⟩ =
      (⟨ems, t0, log0 ++ cbs.map (fun c => AEntry.ainvoked 0 c d t0)⟩,
       cbs.map (fun c => (t0 + dur c, fails c))) := by
  induction cbs generalizing log0 with
  | nil => simp
  | cons c cs ih =>
    rw [parRun_cons, invokeA_eq]
    cases hf : fails c with
    | some err =>
      simp only [delayFailEnv, delayFailOps, hf, runAOps_delay, runAOps_fail]
      rw [ih (log0 ++ [AEntry.ainvoked 0 c d t0])]
      simp [hf]
    | none =>
      simp only [delayFailEnv, delayFailOps, hf, runAOps_delay, runAOps_nil]
      rw [ih (log0 ++ [AEntry.ainvoked 0 c d t0])]
      simp [hf]

/-- `Promise.all` over the settle times `t0 + dur c` equals: the earliest
failure when one exists, else the longest duration. -/
lemma promiseAllSettle_delayFail (dur : Nat → Nat) (fails : Nat → Option E)
    (t0 : Nat) (cbs : List Nat) :
    promiseAllSettle t0 (cbs.map (fun c => (t0 + dur c, fails c))) =
      (match firstEarliestFailure dur fails cbs with
       | some (dm, err) => (t0 + dm, some err)
       | none => (t0 + maxDuration dur cbs, none)) := by
  induction cbs with
  | nil => simp [promiseAllSettle, firstEarliestFailure, maxDuration]
  | cons c cs ih =>
    rw [List.map_cons, promiseAllSettle, ih]
    cases hf : fails c with
    | some err =>
      cases hacc : firstEarliestFailure dur fails cs with
      | none =>
        simp [firstEarliestFailure, hf, hacc, promiseAllCombine, failCombine]
      | some p =>
        rcases p with ⟨dm, em⟩
        simp only [firstEarliestFailure, hf, hacc, promiseAllCombine, failCombine]
        by_cases hle : dur c ≤ dm
        · rw [if_pos (by omega : t0 + dur c ≤ t0 + dm), if_pos hle]
        · rw [if_neg (by omega : ¬ t0 + dur c ≤ t0 + dm), if_neg hle]
    | none =>
      cases hacc : firstEarliestFailure dur fails cs with
      | none =>
        simp only [firstEarliestFailure, hf, hacc, promiseAllCombine, failCombine,
          maxDuration]
        rw [Nat.add_max_add_left]
      | some p =>
        rcases p with ⟨dm, em⟩
        simp [firstEarliestFailure, hf, hacc, promiseAllCombine, failCombine]

/-- **C4** (amended): with the `parallel` strategy, all subscribers are
still invoked (started) at the dispatch tick even when some fail (first
conjunct: the log lists every snapshot entry once, at tick `t0`), the
subscriber list is untouched (second conjunct), and `emit`'s completion
signal — `await Promise.all` — settles at the **earliest** failure when one
exists, reporting that failure's error (possibly before slower subscribers
have settled), and otherwise fulfills once the slowest subscriber finishes
(third conjunct). -/
theorem c4_parallel_emit_reports_earliest_failure (fuel : Nat) (dur : Nat → Nat)
    (fails : Nat → Option E) (d : Option V) (cbs : List Nat) (t0 : Nat)
    (log0 : List (AEntry V)) :
    (emitAsync fuel (delayFailEnv dur fails (V := V)) 0 d
        ⟨[⟨cbs, Strategy.parallel⟩], t0, log0⟩).1.log =
      log0 ++ cbs.map (fun c => AEntry.ainvoked 0 c d t0) ∧
    (emitAsync fuel (delayFailEnv dur fails (V := V)) 0 d
        ⟨[⟨cbs, Strategy.parallel⟩], t0, log0⟩).1.emitters =
      [⟨cbs, Strategy.parallel⟩] ∧
    ((emitAsync fuel (delayFailEnv dur fails (V := V)) 0 d
        ⟨[⟨cbs, Strategy.parallel⟩], t0, log0⟩).1.clock,
     (emitAsync fuel (delayFailEnv dur fails (V := V)) 0 d
        ⟨[⟨cbs, Strategy.parallel⟩], t0, log0⟩).2) =
      (match firstEarliestFailure dur fails cbs with
       | some (dm, err) => (t0 + dm, some err)
       | none => (t0 + maxDuration dur cbs, none)) := by
  rw [emitAsync_eq]
  simp only [getAEm_zero]
  rw [parRun_delayFail fuel dur fails d cbs [⟨cbs, Strategy.parallel⟩] t0 log0]
  simp only
  rw [promiseAllSettle_delayFail dur fails t0 cbs]
  cases hacc : firstEarliestFailure dur fails cbs with
  | none => simp
  | some p =>
    rcases p with ⟨dm, em⟩
    simp

/-- Reading a world after a `setEm`. -/
lemma getEm_setEm (w : World V) (e : Nat) (em : SyncEmitter V) (e2 : Nat) :
    getEm (setEm w e em) e2 =
      if e = e2 ∧ e < w.emitters.length then em else getEm w e2 := by
  unfold getEm setEm
  simp only
  rw [List.getD_eq_getElem?_getD, List.getD_eq_getElem?_getD, List.getElem?_set]
  by_cases h1 : e = e2
  · subst h1
    by_cases h2 : e < w.emitters.length
    · simp [h2]
    · simp only [h2, and_false, if_false, false_and]
      rw [List.getElem?_eq_none (Nat.le_of_not_lt h2)]
      simp [h2]
  · simp [h1]

/-- `setEm` with an emitter of unchanged `value` preserves every `value`. -/
lemma value_setEm (w : World V) (e : Nat) (em : SyncEmitter V) (e2 : Nat)
    (h : em.value = (getEm w e).value) :
    (getEm (setEm w e em) e2).value = (getEm w e2).value := by
  rw [getEm_setEm]
  by_cases h1 : e = e2 ∧ e < w.emitters.length
  · rw [if_pos h1, h, h1.1]
  · rw [if_neg h1]

/-- Passive-read handler effects: subscribe/unsubscribe bookkeeping, resolve
of a `first` promise, and reads of a channel's `value` getter — nothing that
emits or writes `_value`. -/
inductive ROp (V : Type) where
  | unsub (e c : Nat)
  | sub (e c : Nat)
  | resolveFirst (e : Nat) (d : Option V)
  | readValue (e : Nat)
deriving DecidableEq

/-- Embeds a passive-read effect into the full effect language. -/
def ROp.toOp : ROp V → Op V
  | ROp.unsub e c => Op.unsub e c
  | ROp.sub e c => Op.sub e c
  | ROp.resolveFirst e d => Op.resolveFirst e d
  | ROp.readValue e => Op.readValue e

/-- An environment of handlers that never emit and never write `_value`. -/
def rEnv (g : Nat → Option V → List (ROp V)) : Env V :=
  fun c d => (g c d).map ROp.toOp

/-- Running passive-read effects preserves every emitter's `value`, and each
`observed` entry it appends about emitter 0 records emitter 0's current
`value`. -/
lemma runOps_rEnv (fuel : Nat) (g : Nat → Option V → List (ROp V)) (self : Nat)
    (d : Option V) (l : List (ROp V)) (w : World V) :
    (∀ e2, (getEm (runOps fuel (rEnv g) self d (l.map ROp.toOp) w) e2).value =
      (getEm w e2).value) ∧
    (∀ c val, Entry.observed 0 c val ∈ (runOps fuel (rEnv g) self d (l.map ROp.toOp) w).log →
      Entry.observed 0 c val ∈ w.log ∨ val = (getEm w 0).value) := by
  induction l generalizing w with
  | nil =>
    constructor
    · intro e2
      simp
    · intro c val hm
      simp only [List.map_nil, runOps_nil] at hm
      exact Or.inl hm
  | cons op rest ih =>
    cases op with
    | unsub e c =>
      have hih := ih (applyUnsub e c w)
      have hval : ∀ e2, (getEm (applyUnsub e c w) e2).value = (getEm w e2).value := by
        intro e2
        rw [applyUnsub_eq]
        exact value_setEm w e _ e2 rfl
      have hlog : (applyUnsub e c w).log = w.log := rfl
      simp only [List.map_cons, ROp.toOp, runOps_unsub]
      constructor
      · intro e2
        rw [hih.1 e2, hval e2]
      · intro c2 val hmem
        rcases hih.2 c2 val hmem with hm | hm
        · rw [hlog] at hm
          exact Or.inl hm
        · rw [hval 0] at hm
          exact Or.inr hm
    | sub e c =>
      have hih := ih (applySub e c w)
      have hval : ∀ e2, (getEm (applySub e c w) e2).value = (getEm w e2).value := by
        intro e2
        rw [applySub_eq]
        exact value_setEm w e _ e2 rfl
      have hlog : (applySub e c w).log = w.log := rfl
      simp only [List.map_cons, ROp.toOp, runOps_sub]
      constructor
      · intro e2
        rw [hih.1 e2, hval e2]
      · intro c2 val hmem
        rcases hih.2 c2 val hmem with hm | hm
        · rw [hlog] at hm
          exact Or.inl hm
        · rw [hval 0] at hm
          exact Or.inr hm
    | resolveFirst e dv =>
      have hih := ih (applyResolveFirst e dv w)
      have hval : ∀ e2, (getEm (applyResolveFirst e dv w) e2).value = (getEm w e2).value := by
        intro e2
        rw [applyResolveFirst_eq]
        cases hfr : (getEm w e).firstResolvedVal with
        | none => exact value_setEm w e _ e2 rfl
        | some p => rfl
      have hlog : (applyResolveFirst e dv w).log = w.log := by
        rw [applyResolveFirst_eq]
        cases hfr : (getEm w e).firstResolvedVal with
        | none => rfl
        | some p => rfl
      simp only [List.map_cons, ROp.toOp, runOps_resolveFirst]
      constructor
      · intro e2
        rw [hih.1 e2, hval e2]
      · intro c2 val hmem
        rcases hih.2 c2 val hmem with hm | hm
        · rw [hlog] at hm
          exact Or.inl hm
        · rw [hval 0] at hm
          exact Or.inr hm
    | readValue e =>
      have hih := ih (applyRead e self w)
      have hval : ∀ e2, (getEm (applyRead e self w) e2).value = (getEm w e2).value := by
        intro e2
        rfl
      simp only [List.map_cons, ROp.toOp, runOps_readValue]
      constructor
      · intro e2
        rw [hih.1 e2, hval e2]
      · intro c2 val hmem
        rcases hih.2 c2 val hmem with hm | hm
        · rw [applyRead_eq] at hm
          simp only [List.mem_append, List.mem_singleton] at hm
          rcases hm with hm | hm
          · exact Or.inl hm
          · by_cases he : e = 0
            · subst he
              rw [Entry.observed.injEq] at hm
              exact Or.inr (by rw [hm.2.2])
            · exact absurd (congrArg (fun en => match en with
                | Entry.observed e2 _ _ => e2
                | _ => 99) hm) (by simpa using fun hcon => he hcon.symm)
        · rw [hval 0] at hm
          exact Or.inr hm

/-- Dispatch over handlers with passive-read effects preserves every
emitter's `value`, and each `observed` entry appended about emitter 0
records emitter 0's current `value`. -/
lemma dispatch_rEnv (fuel : Nat) (g : Nat → Option V → List (ROp V)) (e : Nat)
    (d : Option V) (cbs : List Nat) (w : World V) :
    (∀ e2, (getEm (dispatch fuel (rEnv g) e d cbs w) e2).value = (getEm w e2).value) ∧
    (∀ c val, Entry.observed 0 c val ∈ (dispatch fuel (rEnv g) e d cbs w).log →
      Entry.observed 0 c val ∈ w.log ∨ val = (getEm w 0).value) := by
  induction cbs generalizing w with
  | nil =>
    constructor
    · intro e2
      simp
    · intro c val hm
      simp only [dispatch_nil] at hm
      exact Or.inl hm
  | cons c cs ihcs =>
    rw [dispatch_cons]
    by_cases hc : c ∈ (getEm w e).callbacks
    · rw [if_pos hc, invoke_eq]
      have hrun := runOps_rEnv fuel g c d (g c d)
        { w with log := w.log ++ [Entry.invoked e c d] }
      have hih := ihcs (runOps fuel (rEnv g) c d (rEnv g c d)
        { w with log := w.log ++ [Entry.invoked e c d] })
      have henv : rEnv g c d = (g c d).map ROp.toOp := rfl
      constructor
      · intro e2
        rw [hih.1 e2]
        rw [henv]
        exact hrun.1 e2
      · intro c2 val hmem
        rcases hih.2 c2 val hmem with hm | hm
        · rw [henv] at hm
          rcases hrun.2 c2 val hm with hm2 | hm2
          · simp only [List.mem_append, List.mem_singleton] at hm2
            rcases hm2 with hm2 | hm2
            · exact Or.inl hm2
            · exact absurd hm2 (by simp)
          · exact Or.inr hm2
        · rw [henv, hrun.1 0] at hm
          exact Or.inr hm
    · rw [if_neg hc]
      exact ihcs w

/-- **C10**: `emit(d)` writes `_value = d` before dispatching, so a callback
reading the channel's `value` getter during dispatch observes `d`, never the
previously stored value: any `observed`-emitter-0 log entry produced by the
emission (i.e. not already in the prior log) records exactly the emitted
payload, for arbitrary handler families that subscribe, unsubscribe,
resolve promises and read `value` but do not themselves re-emit. -/
theorem c10_dispatch_observes_freshly_written_value (fuel : Nat)
    (g : Nat → Option V → List (ROp V)) (cbs : List Nat) (v0 : Option V)
    (fr : Option (Option V)) (hr : Bool) (log0 : List (Entry V)) (d : Option V)
    (c : Nat) (val : Option V)
    (hmem : Entry.observed 0 c val ∈
      (emitFn fuel (rEnv g) 0 d ⟨[⟨cbs, v0, fr, hr⟩], log0⟩).log)
    (hnew : Entry.observed 0 c val ∉ log0) : val = d := by
  rw [emitFn_eq] at hmem
  simp only [setValue_eq, getEm_zero, setEm_zero] at hmem
  have h := dispatch_rEnv fuel g 0 d cbs ⟨[⟨cbs, d, fr, hr⟩], log0⟩
  rcases h.2 c val hmem with hm | hm
  · exact absurd hm hnew
  · simpa using hm

/-- Witness scenario for C10: one subscriber that reads `value`. -/
def c10ReadEnvG : Nat → Option Nat → List (ROp Nat) :=
  fun c _ => if c = 1 then [ROp.readValue 0] else []

/-- Witness for C10 at a concrete input: subscriber 1 reads `value` during
`emit (some 5)` on a channel whose previous value was `some 3`, and the
recorded observation is `some 5`. -/
theorem c10_dispatch_observes_freshly_written_value_witness :
    (some 5 : Option Nat) = some 5 :=
  c10_dispatch_observes_freshly_written_value 5 c10ReadEnvG [1] (some 3) none false []
    (some 5) 1 (some 5)
    (by simp [rEnv, c10ReadEnvG, ROp.toOp])
    (by simp)
